import Mathlib

/-!
Shallow embedding of the push-delivery and session-gatekeeping core of
open-im-server: the `GinParseToken` API middleware, the push server's
`PushMsg` dispatcher, and the `authverify` admin checks.

External collaborators (the JWT decoder `tokenverify.GetClaimFromToken`,
the token store `AuthDatabase.GetTokensWithoutError`, the pusher methods
`Push2SuperGroup` / `Push2User`, and `constant.PlatformIDToName`) are
modelled as oracle fields of environment structures, so every theorem
quantifies over all of their possible behaviours.
-/

/-- Token lifecycle constant `constant.NormalToken` from the protocol
package: the state of a currently valid token. -/
def NormalToken : Int := 0

/-- Token lifecycle constant `constant.KickedToken` from the protocol
package: the state of a token invalidated by supersession or kick. -/
def KickedToken : Int := 1

/-- Session type constant `constant.SuperGroupChatType` from the protocol
package, matched by the `PushMsg` dispatch switch. -/
def SuperGroupChatType : Int := 3

/-- Option key `constant.IsSenderSync` from the protocol package; the
claims depend only on its identity, not on its spelling. -/
def IsSenderSync : String := "senderSync"

/-- The typed error classes of the `errs` package that `GinParseToken`
can reject a call with. -/
inductive ErrClass where
  | errArgs
  | errTokenUnknown
  | errTokenNotExist
  | errTokenKicked
deriving DecidableEq, Repr

/-- HTTP request methods relevant to the middleware's method switch. -/
inductive Method where
  | post
  | get
  | put
deriving DecidableEq, Repr

/-- Claims decoded from a JWT token: the claimed userID and platformID. -/
structure Claims where
  userID : String
  platformID : Int
deriving DecidableEq, Repr

/-- Observable outcome of running the middleware on one request.
`reject e` models `apiresp.GinError(c, e)` followed by `c.Abort()`: a typed
error is written, no context keys are set, the downstream handler never
runs. `proceed bound` models the chain continuing to the downstream
handler, where `bound = some (platformName, userID)` records the
`c.Set(OpUserPlatform, ...)` / `c.Set(OpUserID, ...)` context bindings and
`bound = none` means the middleware returned without touching the context
(gin then continues the chain to the handler). -/
inductive GateResult where
  | reject (e : ErrClass)
  | proceed (bound : Option (String × String))
deriving DecidableEq, Repr

/-- Environment of external collaborators of `GinParseToken`:
`decode` is `tokenverify.GetClaimFromToken` with the configured secret;
`store` is `dataBase.GetTokensWithoutError`, returning for a claimed
(userID, platformID) either an infrastructure error or the stored
token-to-state map (modelled as an association list); `platformIDToName`
is `constant.PlatformIDToName`. -/
structure TokenEnv where
  decode : String → Except Unit Claims
  store : String → Int → Except Unit (List (String × Int))
  platformIDToName : Int → String

/-- The inner handler returned by `GinParseToken` (part_000, lines
320-369), as a function of the request method and the value of the token
header (the empty string models a missing header, as in the Go
`c.Request.Header.Get` contract). -/
def ginParseToken (env : TokenEnv) (method : Method) (token : String) : GateResult :=
  match method with
  | Method.post =>
    if token = "" then
      GateResult.reject ErrClass.errArgs
    else
      match env.decode token with
      | Except.error _ => GateResult.reject ErrClass.errTokenUnknown
      | Except.ok claims =>
        match env.store claims.userID claims.platformID with
        | Except.error _ => GateResult.reject ErrClass.errTokenNotExist
        | Except.ok m =>
          if m.length = 0 then
            GateResult.reject ErrClass.errTokenNotExist
          else
            match m.lookup token with
            | some v =>
              if v = NormalToken then
                GateResult.proceed
                  (some (env.platformIDToName claims.platformID, claims.userID))
              else if v = KickedToken then
                GateResult.reject ErrClass.errTokenKicked
              else
                GateResult.reject ErrClass.errTokenUnknown
            | none => GateResult.reject ErrClass.errTokenNotExist
  | _ => GateResult.proceed none

/-- Errors a pusher call can report. `noOfflinePusher` is the
distinguished sentinel `errNoOfflinePusher` that `PushMsg` compares the
returned error against by identity; `other msg` is any other non-nil
error. -/
inductive PushErr where
  | noOfflinePusher
  | other (msg : String)
deriving DecidableEq, Repr

/-- The fields of `pbData.MsgData` that `PushMsg` reads: sender, direct
recipient, group, the session-type discriminator, and the delivery
options map. -/
structure MsgData where
  sendID : String
  recvID : String
  groupID : String
  sessionType : Int
  options : List (String × Bool)
deriving DecidableEq, Repr

/-- Modelled from the spec: `utils.GetSwitchFromOptions` lives in the
external OpenIMSDK/tools module, not under src/. Per the spec an event
carries "a boolean sender-sync option" and "with sender-sync unset,
RecipientSet = \x7brecipientID\x7d exactly; with sender-sync set,
RecipientSet = \x7brecipientID, senderID\x7d", so an option key that is
unset reads as disabled. -/
def getSwitchFromOptions (options : List (String × Bool)) (key : String) : Bool :=
  (options.lookup key).getD false

/-- The per-user recipient list built by the default branch of `PushMsg`
(part_001, lines 81-87): `[recvID]` when `isSenderSync` is false,
`[recvID, sendID]` when it is true. -/
def pushUserIDList (msg : MsgData) : List String :=
  if !(getSwitchFromOptions msg.options IsSenderSync) then
    [msg.recvID]
  else
    [msg.recvID, msg.sendID]

/-- Which pusher method `PushMsg` delegates to, with its argument. -/
inductive PushTarget where
  | superGroup (groupID : String)
  | users (userIDs : List String)
deriving DecidableEq, Repr

/-- The dispatch switch of `PushMsg` (part_001, lines 77-89): a
super-group-chat event goes to `Push2SuperGroup` with the event's
groupID; every other session type goes to `Push2User` with the computed
recipient list. -/
def pushDispatch (msg : MsgData) : PushTarget :=
  if msg.sessionType = SuperGroupChatType then
    PushTarget.superGroup msg.groupID
  else
    PushTarget.users (pushUserIDList msg)

/-- Environment of external collaborators of `PushMsg`: the two pusher
methods, each returning `none` for success or `some e` for an error. -/
structure PusherEnv where
  push2SuperGroup : String → MsgData → Option PushErr
  push2User : List String → MsgData → Option PushErr

/-- The error produced by the pusher call that `PushMsg` makes for a
given message: the `err` variable of part_001 after the switch. -/
def pusherResult (env : PusherEnv) (msg : MsgData) : Option PushErr :=
  match pushDispatch msg with
  | PushTarget.superGroup gid => env.push2SuperGroup gid msg
  | PushTarget.users ids => env.push2User ids msg

/-- `PushMsg`'s observable outcome: `ok` models returning
`(&pbpush.PushMsgResp, nil)`, `fail e` models returning `(nil, e)`. -/
inductive PushMsgResult where
  | ok
  | fail (e : PushErr)
deriving DecidableEq, Repr

/-- `pushServer.PushMsg` (part_001, lines 76-98): run the dispatched
pusher call; a non-nil error other than `errNoOfflinePusher` fails the
call, `errNoOfflinePusher` is only logged, and in every other case the
call returns a successful response. -/
def pushMsg (env : PusherEnv) (msg : MsgData) : PushMsgResult :=
  match pusherResult env msg with
  | some e =>
    if e ≠ PushErr.noOfflinePusher then
      PushMsgResult.fail e
    else
      PushMsgResult.ok
  | none => PushMsgResult.ok

/-- The `Manager.UserID` and `IMAdmin.UserID` lists of the global
configuration, the only configuration the admin checks read. -/
structure Config where
  managerUserID : List String
  imAdminUserID : List String
deriving DecidableEq, Repr

/-- Modelled from the spec: `utils.IsContain` lives in the external
OpenIMSDK/tools module, not under src/; the admin checks use it as the
"manager/IMAdmin membership tests", so it is list membership of the
target in the list. -/
def isContain (target : String) (l : List String) : Bool :=
  l.contains target

/-- `authverify.IsAppManagerUid` (token.go, lines 49-52), as a function
of the configuration and the operating user ID drawn from the context. -/
def IsAppManagerUid (cfg : Config) (opUserID : String) : Bool :=
  (decide (0 < cfg.managerUserID.length) && isContain opUserID cfg.managerUserID)
    || isContain opUserID cfg.imAdminUserID

/-- `authverify.CheckAdmin` (token.go, lines 54-62): `none` models a nil
error, `some msg` models `ErrNoPermission.Wrap(msg)`. -/
def CheckAdmin (cfg : Config) (opUserID : String) : Option String :=
  if decide (0 < cfg.managerUserID.length) && isContain opUserID cfg.managerUserID then
    none
  else if isContain opUserID cfg.imAdminUserID then
    none
  else
    some ("user " ++ opUserID ++ " is not admin userID")

/-- `authverify.CheckIMAdmin` (token.go, lines 63-71): the same two
membership tests in the opposite order, with a different message. -/
def CheckIMAdmin (cfg : Config) (opUserID : String) : Option String :=
  if isContain opUserID cfg.imAdminUserID then
    none
  else if decide (0 < cfg.managerUserID.length) && isContain opUserID cfg.managerUserID then
    none
  else
    some ("user " ++ opUserID ++ " is not CheckIMAdmin userID")

/-- Concrete claims used by the concrete environments below. -/
def claimsW : Claims := { userID := "u9", platformID := 2 }

/-- A concrete environment whose decoder fails on every token and whose
store holds no tokens at all. -/
def envNoTokens : TokenEnv :=
  { decode := fun _ => Except.error ()
    store := fun _ _ => Except.ok []
    platformIDToName := fun _ => "IOS" }

/-- A concrete environment where every token decodes to `claimsW` and the
store holds the single token "t1" in the kicked state. -/
def envKicked : TokenEnv :=
  { decode := fun _ => Except.ok claimsW
    store := fun _ _ => Except.ok [("t1", KickedToken)]
    platformIDToName := fun _ => "IOS" }

/-- A concrete environment where every token decodes to `claimsW` and the
store holds the single token "t0" in the normal state. -/
def envNormal : TokenEnv :=
  { decode := fun _ => Except.ok claimsW
    store := fun _ _ => Except.ok [("t0", NormalToken)]
    platformIDToName := fun _ => "IOS" }

/-- A concrete environment where every token decodes to `claimsW` and
every store lookup fails with an infrastructure error. -/
def envStoreErr : TokenEnv :=
  { decode := fun _ => Except.ok claimsW
    store := fun _ _ => Except.error ()
    platformIDToName := fun _ => "IOS" }

/-- A concrete super-group message event. -/
def msgSuperW : MsgData :=
  { sendID := "u1", recvID := "", groupID := "g7"
    sessionType := SuperGroupChatType, options := [] }

/-- A concrete direct message event with the sender-sync option set. -/
def msgDirectW : MsgData :=
  { sendID := "u1", recvID := "u2", groupID := ""
    sessionType := 1, options := [(IsSenderSync, true)] }

/-- A concrete pusher environment in which every delivery attempt reports
the distinguished no-offline-pusher error. -/
def envNoOffline : PusherEnv :=
  { push2SuperGroup := fun _ _ => some PushErr.noOfflinePusher
    push2User := fun _ _ => some PushErr.noOfflinePusher }

/-- Helper: a successful association-list lookup means the list is
nonempty, so the middleware's zero-length check cannot fire. -/
theorem lookup_some_length_ne_zero {m : List (String × Int)} {t : String}
    {v : Int} (h : m.lookup t = some v) : ¬ m.length = 0 := by
  cases m with
  | nil => simp [List.lookup] at h
  | cons a l => simp

/-- Claim C5: a gated POST call whose token header is empty is rejected
with the argument-error class and aborted; since this holds for every
environment (every decoder and every store state), the rejection is
independent of the store and happens without any store lookup. -/
theorem ginParseToken_missing_token_rejected (env : TokenEnv) :
    ginParseToken env Method.post "" = GateResult.reject ErrClass.errArgs := by
  rfl

/-- Claim C1: for a gated POST call whose token is present and decodes to
claims `c`, with the store returning the map `m` for `(c.userID,
c.platformID)`: an empty map or a map not containing the token rejects
with the token-does-not-exist class; a stored kicked state rejects with
the token-kicked class; a stored normal state accepts and binds the
resolved identity. -/
theorem ginParseToken_state_cases (env : TokenEnv) (token : String)
    (c : Claims) (m : List (String × Int))
    (htok : ¬ token = "") (hdec : env.decode token = Except.ok c)
    (hstore : env.store c.userID c.platformID = Except.ok m) :
    ((m = [] ∨ m.lookup token = none) →
      ginParseToken env Method.post token = GateResult.reject ErrClass.errTokenNotExist) ∧
    (m.lookup token = some KickedToken →
      ginParseToken env Method.post token = GateResult.reject ErrClass.errTokenKicked) ∧
    (m.lookup token = some NormalToken →
      ginParseToken env Method.post token =
        GateResult.proceed (some (env.platformIDToName c.platformID, c.userID))) := by
  refine ⟨?_, ?_, ?_⟩ <;> intro h
  · simp only [ginParseToken, if_neg htok, hdec, hstore]
    rcases h with h | h
    · subst h
      simp
    · simp only [h]
      by_cases hm : m.length = 0 <;> simp [hm]
  · have hm := lookup_some_length_ne_zero h
    simp [ginParseToken, if_neg htok, hdec, hstore, hm, h, KickedToken, NormalToken]
  · have hm := lookup_some_length_ne_zero h
    simp [ginParseToken, if_neg htok, hdec, hstore, hm, h, NormalToken]

/-- Witness for C1 at a concrete kicked token. -/
theorem ginParseToken_state_cases_witness :
    ginParseToken envKicked Method.post "t1" = GateResult.reject ErrClass.errTokenKicked := by
  have h := ginParseToken_state_cases envKicked "t1" claimsW [("t1", KickedToken)]
    (by decide) rfl rfl
  exact h.2.1 (by decide)

/-- Claim C8: a gated POST call with a non-empty token that fails claim
decoding is rejected with the unrecognized-token class, and the result is
the same for every possible store, so the store is never consulted. -/
theorem ginParseToken_decode_failure_rejected (env : TokenEnv) (token : String)
    (htok : ¬ token = "") (hdec : env.decode token = Except.error ()) :
    ginParseToken env Method.post token = GateResult.reject ErrClass.errTokenUnknown ∧
    (∀ store2 : String → Int → Except Unit (List (String × Int)),
      ginParseToken { env with store := store2 } Method.post token =
        GateResult.reject ErrClass.errTokenUnknown) := by
  constructor
  · simp [ginParseToken, if_neg htok, hdec]
  · intro store2
    simp [ginParseToken, if_neg htok]
    rw [show ({ env with store := store2 } : TokenEnv).decode = env.decode from rfl, hdec]

/-- Witness for C8 at a concrete undecodable token. -/
theorem ginParseToken_decode_failure_rejected_witness :
    ginParseToken envNoTokens Method.post "bad" = GateResult.reject ErrClass.errTokenUnknown :=
  (ginParseToken_decode_failure_rejected envNoTokens "bad" (by decide) rfl).1

/-- Claim C9: when the store lookup itself returns an error, the
middleware rejects with the same token-does-not-exist class it uses for a
genuinely absent token, so the two situations produce the same observable
result. -/
theorem ginParseToken_store_error_as_not_exist (env : TokenEnv) (token : String)
    (c : Claims) (htok : ¬ token = "") (hdec : env.decode token = Except.ok c)
    (hstore : env.store c.userID c.platformID = Except.error ()) :
    ginParseToken env Method.post token = GateResult.reject ErrClass.errTokenNotExist ∧
    (∀ store2 : String → Int → Except Unit (List (String × Int)),
      store2 c.userID c.platformID = Except.ok [] →
      ginParseToken { env with store := store2 } Method.post token =
        ginParseToken env Method.post token) := by
  have h1 : ginParseToken env Method.post token = GateResult.reject ErrClass.errTokenNotExist := by
    simp [ginParseToken, if_neg htok, hdec, hstore]
  refine ⟨h1, ?_⟩
  intro store2 h2
  rw [h1]
  simp only [ginParseToken, if_neg htok]
  rw [show ({ env with store := store2 } : TokenEnv).decode = env.decode from rfl, hdec]
  simp [h2]

/-- Witness for C9 at a concrete failing store. -/
theorem ginParseToken_store_error_as_not_exist_witness :
    ginParseToken envStoreErr Method.post "t9" = GateResult.reject ErrClass.errTokenNotExist :=
  (ginParseToken_store_error_as_not_exist envStoreErr "t9" claimsW (by decide) rfl rfl).1

/-- Claim C6: on a gated POST call the middleware binds the resolved
identity and proceeds to the downstream handler exactly when the full
token check accepts (token present, claims decoded, store returning a map
holding the token in the normal state); in every other case it rejects
with a typed error, so the downstream handler never runs and no context
keys are set. -/
theorem ginParseToken_pure_gate (env : TokenEnv) (token : String) :
    (∀ c m, ¬ token = "" → env.decode token = Except.ok c →
      env.store c.userID c.platformID = Except.ok m →
      m.lookup token = some NormalToken →
      ginParseToken env Method.post token =
        GateResult.proceed (some (env.platformIDToName c.platformID, c.userID))) ∧
    ((¬ ∃ c m, ¬ token = "" ∧ env.decode token = Except.ok c ∧
        env.store c.userID c.platformID = Except.ok m ∧
        m.lookup token = some NormalToken) →
      ∃ e, ginParseToken env Method.post token = GateResult.reject e) := by
  constructor
  · intro c m htok hdec hstore hnorm
    have hm := lookup_some_length_ne_zero hnorm
    simp [ginParseToken, if_neg htok, hdec, hstore, hm, hnorm, NormalToken]
  · intro hno
    by_cases htok : token = ""
    · exact ⟨ErrClass.errArgs, by simp [ginParseToken, htok]⟩
    · cases hdec : env.decode token with
      | error u =>
        exact ⟨ErrClass.errTokenUnknown, by simp [ginParseToken, if_neg htok, hdec]⟩
      | ok c =>
        cases hstore : env.store c.userID c.platformID with
        | error u =>
          exact ⟨ErrClass.errTokenNotExist, by simp [ginParseToken, if_neg htok, hdec, hstore]⟩
        | ok m =>
          by_cases hm : m.length = 0
          · exact ⟨ErrClass.errTokenNotExist, by simp [ginParseToken, if_neg htok, hdec, hstore, hm]⟩
          · cases hl : m.lookup token with
            | none =>
              exact ⟨ErrClass.errTokenNotExist,
                by simp [ginParseToken, if_neg htok, hdec, hstore, hm, hl]⟩
            | some v =>
              by_cases hv : v = NormalToken
              · exact absurd ⟨c, m, htok, hdec, hstore, hv ▸ hl⟩ hno
              · by_cases hk : v = KickedToken
                · exact ⟨ErrClass.errTokenKicked,
                    by simp [ginParseToken, if_neg htok, hdec, hstore, hm, hl, hv, hk,
                      KickedToken, NormalToken]⟩
                · exact ⟨ErrClass.errTokenUnknown,
                    by simp [ginParseToken, if_neg htok, hdec, hstore, hm, hl, hv, hk]⟩
  
/-- Witness for C6 at a concrete normal token. -/
theorem ginParseToken_pure_gate_witness :
    ginParseToken envNormal Method.post "t0" = GateResult.proceed (some ("IOS", "u9")) :=
  (ginParseToken_pure_gate envNormal "t0").1 claimsW [("t0", NormalToken)]
    (by decide) rfl rfl (by decide)

/-- Counterexample to claim C4 as stated: in an environment whose store
holds no tokens at all and whose decoder accepts nothing, a GET call on a
gated route — with not even a token header — proceeds straight to the
downstream handler with nothing checked and no identity bound, while the
identical POST call is rejected; so gating does not hold regardless of
the request's HTTP method. -/
theorem ginParseToken_get_bypasses_gate :
    ginParseToken envNoTokens Method.get "" = GateResult.proceed none ∧
    ginParseToken envNoTokens Method.post "" = GateResult.reject ErrClass.errArgs := by
  exact ⟨rfl, rfl⟩

/-- Claim C4, amended: for every gated POST call the middleware performs
the full token check — the call reaches the downstream handler only with
the token present, decoded, found in the normal state in the store, and
the resolved identity bound into the context; a gated call with any
other HTTP method passes through to the downstream handler with no check
and no binding. -/
theorem ginParseToken_post_calls_gated (env : TokenEnv) (token : String) :
    (∀ b, ginParseToken env Method.post token = GateResult.proceed b →
      ¬ token = "" ∧ ∃ c, env.decode token = Except.ok c ∧
        ∃ m, env.store c.userID c.platformID = Except.ok m ∧
          m.lookup token = some NormalToken ∧
          b = some (env.platformIDToName c.platformID, c.userID)) ∧
    (∀ method, ¬ method = Method.post →
      ginParseToken env method token = GateResult.proceed none) := by
  constructor
  · intro b hb
    by_cases htok : token = ""
    · simp [ginParseToken, htok] at hb
    · refine ⟨htok, ?_⟩
      cases hdec : env.decode token with
      | error u => simp [ginParseToken, if_neg htok, hdec] at hb
      | ok c =>
        refine ⟨c, rfl, ?_⟩
        cases hstore : env.store c.userID c.platformID with
        | error u => simp [ginParseToken, if_neg htok, hdec, hstore] at hb
        | ok m =>
          refine ⟨m, rfl, ?_⟩
          by_cases hm : m.length = 0
          · simp [ginParseToken, if_neg htok, hdec, hstore, hm] at hb
          · cases hl : m.lookup token with
            | none => simp [ginParseToken, if_neg htok, hdec, hstore, hm, hl] at hb
            | some v =>
              by_cases hv : v = NormalToken
              · subst hv
                refine ⟨rfl, ?_⟩
                simp [ginParseToken, if_neg htok, hdec, hstore, hm, hl] at hb
                exact hb.symm
              · by_cases hk : v = KickedToken
                · simp [ginParseToken, if_neg htok, hdec, hstore, hm, hl, hv, hk,
                    KickedToken, NormalToken] at hb
                · simp [ginParseToken, if_neg htok, hdec, hstore, hm, hl, hv, hk] at hb
  · intro method hmeth
    cases method with
    | post => exact absurd rfl hmeth
    | get => rfl
    | put => rfl

/-- Witness for the amended C4 at a concrete non-POST method. -/
theorem ginParseToken_post_calls_gated_witness :
    ginParseToken envNoTokens Method.put "sometoken" = GateResult.proceed none :=
  (ginParseToken_post_calls_gated envNoTokens "sometoken").2 Method.put (by decide)

/-- Claim C2: `PushMsg` succeeds when the pusher call returns the
distinguished no-offline-pusher error (it is only logged), fails with the
pusher's error when any other non-nil error is returned, and succeeds
when the pusher returns nil. -/
theorem pushMsg_error_policy (env : PusherEnv) (msg : MsgData) :
    (pusherResult env msg = some PushErr.noOfflinePusher →
      pushMsg env msg = PushMsgResult.ok) ∧
    (∀ e, pusherResult env msg = some e → ¬ e = PushErr.noOfflinePusher →
      pushMsg env msg = PushMsgResult.fail e) ∧
    (pusherResult env msg = none → pushMsg env msg = PushMsgResult.ok) := by
  refine ⟨?_, ?_, ?_⟩
  · intro h
    simp [pushMsg, h]
  · intro e h hne
    simp [pushMsg, h, hne]
  · intro h
    simp [pushMsg, h]

/-- Witness for C2: with every pusher call reporting no-offline-pusher,
the overall call still succeeds. -/
theorem pushMsg_error_policy_witness :
    pushMsg envNoOffline msgSuperW = PushMsgResult.ok :=
  (pushMsg_error_policy envNoOffline msgSuperW).1 rfl

/-- Claim C3 (spec-modelled option semantics): for a non-super-group
event the recipient list handed to `Push2User` is exactly `[recvID]` when
the sender-sync option is unset or set to false, and exactly
`[recvID, sendID]` when it is set to true. -/
theorem pushDispatch_direct_recipients (msg : MsgData)
    (hdirect : ¬ msg.sessionType = SuperGroupChatType) :
    (msg.options.lookup IsSenderSync = none →
      pushDispatch msg = PushTarget.users [msg.recvID]) ∧
    (msg.options.lookup IsSenderSync = some false →
      pushDispatch msg = PushTarget.users [msg.recvID]) ∧
    (msg.options.lookup IsSenderSync = some true →
      pushDispatch msg = PushTarget.users [msg.recvID, msg.sendID]) := by
  refine ⟨?_, ?_, ?_⟩ <;> intro h <;>
    simp [pushDispatch, hdirect, pushUserIDList, getSwitchFromOptions, h]

/-- Witness for C3: a direct message with sender-sync set goes to both
the recipient and the sender. -/
theorem pushDispatch_direct_recipients_witness :
    pushDispatch msgDirectW = PushTarget.users ["u2", "u1"] :=
  (pushDispatch_direct_recipients msgDirectW (by decide)).2.2 rfl

/-- Claim C7: `PushMsg` dispatches on the session-type discriminator: a
super-group-chat event is delegated to `Push2SuperGroup` with the event's
groupID, and every other event is delegated to `Push2User` with the
computed per-user recipient list. -/
theorem pushMsg_dispatch_on_session_type (env : PusherEnv) (msg : MsgData) :
    (msg.sessionType = SuperGroupChatType →
      pushDispatch msg = PushTarget.superGroup msg.groupID ∧
      pusherResult env msg = env.push2SuperGroup msg.groupID msg) ∧
    (¬ msg.sessionType = SuperGroupChatType →
      pushDispatch msg = PushTarget.users (pushUserIDList msg) ∧
      pusherResult env msg = env.push2User (pushUserIDList msg) msg) := by
  constructor
  · intro h
    have hd : pushDispatch msg = PushTarget.superGroup msg.groupID := by
      simp [pushDispatch, h]
    exact ⟨hd, by simp [pusherResult, hd]⟩
  · intro h
    have hd : pushDispatch msg = PushTarget.users (pushUserIDList msg) := by
      simp [pushDispatch, h]
    exact ⟨hd, by simp [pusherResult, hd]⟩

/-- Witness for C7 at a concrete super-group event. -/
theorem pushMsg_dispatch_on_session_type_witness :
    pushDispatch msgSuperW = PushTarget.superGroup "g7" :=
  ((pushMsg_dispatch_on_session_type envNoOffline msgSuperW).1 rfl).1

/-- Claim C10: `CheckAdmin` and `CheckIMAdmin` accept exactly the same
callers, and both accept exactly when `IsAppManagerUid` is true: the
three checks differ only in the order of the manager/IMAdmin membership
tests and in their error messages. -/
theorem admin_checks_accept_same_callers (cfg : Config) (op : String) :
    (CheckAdmin cfg op = none ↔ CheckIMAdmin cfg op = none) ∧
    (CheckAdmin cfg op = none ↔ IsAppManagerUid cfg op = true) := by
  unfold CheckAdmin CheckIMAdmin IsAppManagerUid
  by_cases h1 : (decide (0 < cfg.managerUserID.length) && isContain op cfg.managerUserID) = true <;>
    by_cases h2 : isContain op cfg.imAdminUserID = true <;>
      simp [h1, h2]

/-- Witness for C10: a configured manager is accepted by `CheckAdmin`. -/
theorem admin_checks_accept_same_callers_witness :
    CheckAdmin { managerUserID := ["adm"], imAdminUserID := [] } "adm" = none :=
  (admin_checks_accept_same_callers { managerUserID := ["adm"], imAdminUserID := [] } "adm").2.mpr
    (by decide)
